import Mathlib

set_option maxHeartbeats 1000000

/-!
Shallow embedding of the `VectorClockAgent` timing ledger (Go sources
`main.go` and the SQLite-backed variant).  The two `sync.Map`s are modelled
as association lists where a `Store` prepends a binding (so `lookup` sees the
most recent one, matching overwrite semantics), the `uint64` counter as a
natural number reduced mod `2 ^ 64` (matching `atomic.AddUint64`), wall-clock
instants as integers (nanoseconds, as in `time.Time`/`time.Duration`), the
SQLite `step_timings` table as a list of rows, and everything printed to
stdout as a log of strings carried in the state.  A Go `panic` during
construction is modelled as `Except.error`.
-/

/-- A row of the `step_timings` SQLite table created by `NewVectorClockAgent`:
`step_id TEXT UNIQUE`, `scenario_name TEXT`, `step_text TEXT`,
`duration_ms INTEGER`, `created_at DATETIME DEFAULT CURRENT_TIMESTAMP`.
The surrogate autoincrement primary key plays no role in any claim and is
omitted; `created_at` is the timestamp string the database fills in. -/
structure DBRow where
  step_id : String
  scenario_name : String
  step_text : String
  duration_ms : Int
  created_at : String
  deriving DecidableEq

/-- State of the timing ledger (`VectorClockAgent` in the source). -/
structure VectorClockAgent where
  startTimes : List (String × Int)
  durations : List (String × Int)
  counter : Nat
  db : List DBRow
  log : List String
  deriving DecidableEq

/-- The `INSERT OR IGNORE INTO step_timings ... VALUES (?, ?, ?, ?)` statement:
because `step_id` is declared `UNIQUE`, a row whose `step_id` is already
present is silently dropped; otherwise the row is appended. -/
def insertOrIgnore (db : List DBRow) (r : DBRow) : List DBRow :=
  if db.any fun q => q.step_id == r.step_id then db else db ++ [r]

/-- The string built by `fmt.Sprintf("%s-%s-%d", scenarioName, stepText, count)`. -/
def mkStepID (scenarioName stepText : String) (count : Nat) : String :=
  scenarioName ++ "-" ++ stepText ++ "-" ++ Nat.repr count

/-- The row bound by `INSERT OR IGNORE INTO step_timings (step_id,
scenario_name, step_text, duration_ms) VALUES (?, ?, ?, ?)`:
`duration.Milliseconds()` divides the nanosecond count by `1e6` truncating
toward zero, and the database fills `created_at` with the current timestamp. -/
def mkRow (id sc st : String) (duration : Int) (stamp : String) : DBRow :=
  { step_id := id, scenario_name := sc, step_text := st,
    duration_ms := Int.tdiv duration 1000000, created_at := stamp }

/-- `NewVectorClockAgent(dbPath)`: opens the database and creates the table,
panicking (modelled as `Except.error`) if either step fails.  `existing` is
whatever the `step_timings` table already holds on disk (`CREATE TABLE IF NOT
EXISTS` never drops rows). -/
def NewVectorClockAgent (openOk createOk : Bool) (existing : List DBRow) :
    Except String VectorClockAgent :=
  if openOk = false then Except.error "failed to open SQLite database"
  else if createOk = false then Except.error "failed to create table"
  else Except.ok { startTimes := [], durations := [], counter := 0,
                   db := existing, log := [] }

/-- A ledger as produced by a successful `NewVectorClockAgent` on a fresh
database file: both maps empty, counter zero, no rows, nothing printed. -/
def freshAgent : VectorClockAgent :=
  { startTimes := [], durations := [], counter := 0, db := [], log := [] }

namespace VectorClockAgent

/-- `generateStepID`: `count := atomic.AddUint64(&v.counter, 1)` (a `uint64`
increment, hence the reduction mod `2 ^ 64`) followed by
`fmt.Sprintf("%s-%s-%d", scenarioName, stepText, count)`.  Returns the id and
the state with the incremented counter. -/
def generateStepID (v : VectorClockAgent) (scenarioName stepText : String) :
    String × VectorClockAgent :=
  let count := (v.counter + 1) % 2 ^ 64
  (mkStepID scenarioName stepText count, { v with counter := count })

/-- `Start(scenarioName, stepText)`: generates the id, stores the current
wall-clock instant `now` under it, and returns the id. -/
def Start (v : VectorClockAgent) (scenarioName stepText : String) (now : Int) :
    String × VectorClockAgent :=
  let p := v.generateStepID scenarioName stepText
  (p.1, { p.2 with startTimes := (p.1, now) :: p.2.startTimes })

/-- `End(stepID, scenarioName, stepText)` of the SQLite-backed variant: looks
up the start time; if absent prints a diagnostic and returns.  Otherwise
computes `duration := time.Since(startTime)` with the current instant `now`,
stores it, and issues the idempotent insert with the duration converted to
whole milliseconds (`duration.Milliseconds()` truncates toward zero, hence
`Int.tdiv`).  `dbFail` says whether the database write fails with an error,
in which case the error is printed and nothing else happens. -/
def End (v : VectorClockAgent) (stepID scenarioName stepText : String)
    (now : Int) (stamp : String) (dbFail : Bool) : VectorClockAgent :=
  match v.startTimes.lookup stepID with
  | none => { v with log := v.log ++ ["No start time recorded for step " ++ stepID] }
  | some startTime =>
    let duration := now - startTime
    let v1 := { v with durations := (stepID, duration) :: v.durations }
    let row : DBRow := mkRow stepID scenarioName stepText duration stamp
    if dbFail then
      { v1 with log := v1.log ++ ["Failed to save step " ++ stepID ++ " to DB"] }
    else
      { v1 with db := insertOrIgnore v1.db row }

end VectorClockAgent

/-- One line of `Report`:
`fmt.Printf("StepID: %s, Scenario: %s, Step: %s, Duration: %d ms, Timestamp: %s\n", ...)`. -/
def reportLine (r : DBRow) : String :=
  "StepID: " ++ r.step_id ++ ", Scenario: " ++ r.scenario_name ++ ", Step: " ++
    r.step_text ++ ", Duration: " ++ toString r.duration_ms ++ " ms, Timestamp: " ++
    r.created_at

namespace VectorClockAgent

/-- `Report()` of the SQLite-backed variant: the header line followed by one
line per row of `SELECT step_id, scenario_name, step_text, duration_ms,
created_at FROM step_timings`.  It only reads; the state is untouched. -/
def Report (v : VectorClockAgent) : List String :=
  "=== Step Duration Report (SQLite) ===" :: v.db.map reportLine

end VectorClockAgent

/-- An externally driven call to the ledger: the hooks fire `Start`, `End` and
`Report` in some order, with the clock values and database outcomes supplied
by the environment. -/
inductive Op where
  | startOp (scenarioName stepText : String) (now : Int)
  | endOp (stepID scenarioName stepText : String) (now : Int) (stamp : String)
      (dbFail : Bool)
  | reportOp
  deriving DecidableEq

/-- Runs a sequence of calls against a ledger, collecting the ids returned by
the `Start` calls and the final state. -/
def runOps : VectorClockAgent → List Op → List String × VectorClockAgent
  | v, [] => ([], v)
  | v, Op.startOp sc st now :: rest =>
    let p := v.Start sc st now
    let q := runOps p.2 rest
    (p.1 :: q.1, q.2)
  | v, Op.endOp id sc st now stamp fail :: rest =>
    runOps (v.End id sc st now stamp fail) rest
  | v, Op.reportOp :: rest => runOps v rest

/-- Number of `Start` calls in a sequence. -/
def countStarts : List Op → Nat
  | [] => 0
  | Op.startOp _ _ _ :: rest => countStarts rest + 1
  | _ :: rest => countStarts rest

/-- Ids returned by the `Start` calls of a sequence, computed from the counter
value alone (the proof below shows `runOps` returns exactly these). -/
def idsFrom (c : Nat) : List Op → List String
  | [] => []
  | Op.startOp sc st _ :: rest =>
    mkStepID sc st ((c + 1) % 2 ^ 64) :: idsFrom ((c + 1) % 2 ^ 64) rest
  | Op.endOp _ _ _ _ _ _ :: rest => idsFrom c rest
  | Op.reportOp :: rest => idsFrom c rest

/-- Every `StepID` holding a duration also holds a start time: the key set of
the durations map is contained in the key set of the start-times map. -/
def durationsCovered (v : VectorClockAgent) : Prop :=
  ∀ id : String, (v.durations.lookup id).isSome = true →
    (v.startTimes.lookup id).isSome = true

/-- Number of rows of the durable store carrying a given `StepID`. -/
def countRows (db : List DBRow) (id : String) : Nat :=
  (db.filter fun q => q.step_id == id).length

/-- A string contains another as a contiguous substring. -/
def containsStr (s sub : String) : Prop := List.IsInfix sub.data s.data

/-! Decimal decoding of `Nat.repr`, used to show that step ids generated at
distinct counter values are distinct strings. -/

/-- Numeric value of a decimal digit character. -/
def digitVal (c : Char) : Nat := c.toNat - 48

/-- Value of a most-significant-first decimal digit string. -/
def digitsVal (l : List Char) : Nat := l.foldl (fun acc c => 10 * acc + digitVal c) 0

theorem digitsVal_append_singleton (l : List Char) (c : Char) :
    digitsVal (l ++ [c]) = 10 * digitsVal l + digitVal c := by
  simp [digitsVal, List.foldl_append]

theorem digitVal_digitChar (m : Nat) (h : m < 10) :
    digitVal (Nat.digitChar m) = m := by
  interval_cases m <;> decide

theorem digitChar_ne_dash (m : Nat) (h : m < 10) : Nat.digitChar m ≠ '-' := by
  interval_cases m <;> decide

theorem toDigitsCore_append (fuel : Nat) : ∀ (n : Nat) (ds : List Char),
    Nat.toDigitsCore 10 fuel n ds = Nat.toDigitsCore 10 fuel n [] ++ ds := by
  induction fuel with
  | zero => intro n ds; simp [Nat.toDigitsCore]
  | succ fuel ih =>
    intro n ds
    simp only [Nat.toDigitsCore]
    by_cases h : n / 10 = 0
    · simp [h]
    · simp only [h, if_false]
      rw [ih (n / 10) (Nat.digitChar (n % 10) :: ds), ih (n / 10) [Nat.digitChar (n % 10)]]
      simp

theorem toDigitsCore_val (fuel : Nat) : ∀ n : Nat, n < fuel →
    digitsVal (Nat.toDigitsCore 10 fuel n []) = n := by
  induction fuel with
  | zero => intro n h; omega
  | succ fuel ih =>
    intro n h
    simp only [Nat.toDigitsCore]
    by_cases h0 : n / 10 = 0
    · have hn : n < 10 := by omega
      simp [h0, digitsVal, digitVal_digitChar (n % 10) (by omega)]
      omega
    · simp only [h0, if_false]
      rw [toDigitsCore_append fuel (n / 10) [Nat.digitChar (n % 10)]]
      rw [digitsVal_append_singleton, ih (n / 10) (by omega),
        digitVal_digitChar (n % 10) (by omega)]
      omega

theorem toDigitsCore_mem (fuel : Nat) : ∀ (n : Nat) (ds : List Char) (c : Char),
    c ∈ Nat.toDigitsCore 10 fuel n ds → c ∈ ds ∨ ∃ m, m < 10 ∧ c = Nat.digitChar m := by
  induction fuel with
  | zero => intro n ds c h; simp [Nat.toDigitsCore] at h; exact Or.inl h
  | succ fuel ih =>
    intro n ds c h
    simp only [Nat.toDigitsCore] at h
    by_cases h0 : n / 10 = 0
    · simp only [h0, if_true, List.mem_cons] at h
      rcases h with h | h
      · exact Or.inr ⟨n % 10, by omega, h⟩
      · exact Or.inl h
    · simp only [h0, if_false] at h
      rcases ih (n / 10) (Nat.digitChar (n % 10) :: ds) c h with h1 | h1
      · rcases List.mem_cons.mp h1 with h2 | h2
        · exact Or.inr ⟨n % 10, by omega, h2⟩
        · exact Or.inl h2
      · exact Or.inr h1

theorem repr_data (n : Nat) : (Nat.repr n).data = Nat.toDigits 10 n := rfl

theorem digitsVal_repr (n : Nat) : digitsVal (Nat.repr n).data = n := by
  rw [repr_data]
  exact toDigitsCore_val (n + 1) n (Nat.lt_succ_self n)

theorem repr_injective (m n : Nat) (h : Nat.repr m = Nat.repr n) : m = n := by
  have hd : (Nat.repr m).data = (Nat.repr n).data := by rw [h]
  have := congrArg digitsVal hd
  rwa [digitsVal_repr, digitsVal_repr] at this

theorem dash_not_mem_repr (n : Nat) : '-' ∉ (Nat.repr n).data := by
  rw [repr_data]
  intro hmem
  rcases toDigitsCore_mem (n + 1) n [] '-' hmem with h | ⟨m, hm, he⟩
  · exact absurd h (List.not_mem_nil _)
  · exact digitChar_ne_dash m hm he.symm

theorem append_dash_cancel : ∀ (l1 l2 r1 r2 : List Char),
    l1 ++ '-' :: r1 = l2 ++ '-' :: r2 → '-' ∉ l1 → '-' ∉ l2 → l1 = l2 ∧ r1 = r2 := by
  intro l1
  induction l1 with
  | nil =>
    intro l2 r1 r2 h h1 h2
    cases l2 with
    | nil => simpa using h
    | cons c cs =>
      simp only [List.nil_append, List.cons_append, List.cons.injEq] at h
      exact absurd (h.1 ▸ List.mem_cons_self c cs) h2
  | cons c cs ih =>
    intro l2 r1 r2 h h1 h2
    cases l2 with
    | nil =>
      simp only [List.nil_append, List.cons_append, List.cons.injEq] at h
      exact absurd (h.1.symm ▸ List.mem_cons_self c cs) h1
    | cons c2 cs2 =>
      simp only [List.cons_append, List.cons.injEq] at h
      obtain ⟨he, h'⟩ := h
      have hr := ih cs2 r1 r2 h' (fun hm => h1 (List.mem_cons_of_mem _ hm))
        (fun hm => h2 (List.mem_cons_of_mem _ hm))
      exact ⟨by rw [he, hr.1], hr.2⟩

theorem mkStepID_counter_injective (a b c d : String) (m n : Nat)
    (h : mkStepID a b m = mkStepID c d n) : m = n := by
  have hd : (mkStepID a b m).data = (mkStepID c d n).data := by rw [h]
  simp only [mkStepID, String.data_append] at hd
  have hr := congrArg List.reverse hd
  simp only [List.reverse_append, List.reverse_singleton, List.singleton_append] at hr
  have hcancel := append_dash_cancel (Nat.repr m).data.reverse (Nat.repr n).data.reverse
    _ _ hr (fun hm => dash_not_mem_repr m (List.mem_reverse.mp hm))
    (fun hm => dash_not_mem_repr n (List.mem_reverse.mp hm))
  have : (Nat.repr m).data = (Nat.repr n).data := by
    have := congrArg List.reverse hcancel.1
    simpa using this
  have hv := congrArg digitsVal this
  rwa [digitsVal_repr, digitsVal_repr] at hv


theorem end_counter (v : VectorClockAgent) (id sc st : String) (now : Int)
    (stamp : String) (fail : Bool) :
    (v.End id sc st now stamp fail).counter = v.counter := by
  unfold VectorClockAgent.End
  cases v.startTimes.lookup id with
  | none => rfl
  | some t => cases fail <;> rfl

theorem runOps_fst : ∀ (ops : List Op) (v : VectorClockAgent),
    (runOps v ops).1 = idsFrom v.counter ops := by
  intro ops
  induction ops with
  | nil => intro v; rfl
  | cons op rest ih =>
    intro v
    cases op with
    | startOp sc st now =>
      show (v.Start sc st now).1 :: (runOps (v.Start sc st now).2 rest).1 =
        mkStepID sc st ((v.counter + 1) % 2 ^ 64) ::
          idsFrom ((v.counter + 1) % 2 ^ 64) rest
      rw [ih]
      rfl
    | endOp id sc st now stamp fail =>
      show (runOps (v.End id sc st now stamp fail) rest).1 = idsFrom v.counter rest
      rw [ih, end_counter]
    | reportOp => exact ih v

theorem idsFrom_nodup : ∀ (ops : List Op) (c : Nat), c + countStarts ops < 2 ^ 64 →
    (idsFrom c ops).Nodup ∧
      ∀ id ∈ idsFrom c ops, ∃ a b n, c < n ∧ n ≤ c + countStarts ops ∧
        id = mkStepID a b n := by
  intro ops
  induction ops with
  | nil => intro c h; exact ⟨List.nodup_nil, by intro id hid; simp [idsFrom] at hid⟩
  | cons op rest ih =>
    intro c h
    cases op with
    | startOp sc st now =>
      have hcount : countStarts (Op.startOp sc st now :: rest) = countStarts rest + 1 := rfl
      rw [hcount] at h
      have hc : (c + 1) % 2 ^ 64 = c + 1 := Nat.mod_eq_of_lt (by omega)
      obtain ⟨hnd, hmem⟩ := ih (c + 1) (by omega)
      simp only [idsFrom, hc]
      refine ⟨List.nodup_cons.mpr ⟨?_, hnd⟩, ?_⟩
      · intro hin
        obtain ⟨a, b, n, hn1, hn2, he⟩ := hmem _ hin
        have := mkStepID_counter_injective sc st a b (c + 1) n he
        omega
      · intro id hid
        rcases List.mem_cons.mp hid with h0 | h0
        · exact ⟨sc, st, c + 1, by omega, by omega, h0⟩
        · obtain ⟨a, b, n, hn1, hn2, he⟩ := hmem id h0
          exact ⟨a, b, n, by omega, by omega, he⟩
    | endOp id0 sc st now stamp fail =>
      have hcount : countStarts (Op.endOp id0 sc st now stamp fail :: rest) =
        countStarts rest := rfl
      rw [hcount] at h
      obtain ⟨hnd, hmem⟩ := ih c h
      exact ⟨hnd, fun id hid => by
        obtain ⟨a, b, n, hn1, hn2, he⟩ := hmem id hid
        exact ⟨a, b, n, hn1, by rw [hcount]; omega, he⟩⟩
    | reportOp =>
      have hcount : countStarts (Op.reportOp :: rest) = countStarts rest := rfl
      rw [hcount] at h
      obtain ⟨hnd, hmem⟩ := ih c h
      exact ⟨hnd, fun id hid => by
        obtain ⟨a, b, n, hn1, hn2, he⟩ := hmem id hid
        exact ⟨a, b, n, hn1, by rw [hcount]; omega, he⟩⟩


theorem lookup_cons_ne {β : Type} (l : List (String × β)) (k k1 : String) (b : β)
    (h : k ≠ k1) : ((k1, b) :: l).lookup k = l.lookup k := by
  simp only [List.lookup]
  have h2 : (k == k1) = false := by simpa using h
  rw [h2]

theorem lookup_cons_isSome_iff {β : Type} (l : List (String × β)) (k k1 : String)
    (b : β) : (((k1, b) :: l).lookup k).isSome = true ↔
      k = k1 ∨ (l.lookup k).isSome = true := by
  by_cases h : k = k1
  · subst h
    simp [List.lookup]
  · rw [lookup_cons_ne l k k1 b h]
    simp [h]

theorem end_def_miss (v : VectorClockAgent) (id sc st : String) (now : Int)
    (stamp : String) (fail : Bool) (h : v.startTimes.lookup id = none) :
    v.End id sc st now stamp fail =
      { v with log := v.log ++ ["No start time recorded for step " ++ id] } := by
  simp [VectorClockAgent.End, h]

theorem end_def_hit_fail (v : VectorClockAgent) (id sc st : String) (now : Int)
    (stamp : String) (t : Int) (h : v.startTimes.lookup id = some t) :
    v.End id sc st now stamp true =
      { v with durations := (id, now - t) :: v.durations,
               log := v.log ++ ["Failed to save step " ++ id ++ " to DB"] } := by
  simp [VectorClockAgent.End, h]

theorem end_def_hit_ok (v : VectorClockAgent) (id sc st : String) (now : Int)
    (stamp : String) (t : Int) (h : v.startTimes.lookup id = some t) :
    v.End id sc st now stamp false =
      { v with durations := (id, now - t) :: v.durations,
               db := insertOrIgnore v.db (mkRow id sc st (now - t) stamp) } := by
  simp [VectorClockAgent.End, h]

theorem durationsCovered_start (v : VectorClockAgent) (sc st : String) (now : Int)
    (hv : durationsCovered v) : durationsCovered (v.Start sc st now).2 := by
  intro id0 h0
  exact (lookup_cons_isSome_iff v.startTimes id0 (v.Start sc st now).1 now).mpr
    (Or.inr (hv id0 h0))

theorem durationsCovered_end (v : VectorClockAgent) (id sc st : String) (now : Int)
    (stamp : String) (fail : Bool) (hv : durationsCovered v) :
    durationsCovered (v.End id sc st now stamp fail) := by
  cases hl : v.startTimes.lookup id with
  | none =>
    rw [end_def_miss v id sc st now stamp fail hl]
    exact fun id0 h0 => hv id0 h0
  | some t =>
    have key : ∀ id0 : String,
        ((((id, now - t) :: v.durations).lookup id0).isSome = true) →
        (v.startTimes.lookup id0).isSome = true := by
      intro id0 h0
      rcases (lookup_cons_isSome_iff v.durations id0 id (now - t)).mp h0 with h1 | h1
      · rw [h1, hl]
        rfl
      · exact hv id0 h1
    cases fail
    · rw [end_def_hit_ok v id sc st now stamp t hl]
      exact key
    · rw [end_def_hit_fail v id sc st now stamp t hl]
      exact key

theorem durationsCovered_runOps : ∀ (ops : List Op) (v : VectorClockAgent),
    durationsCovered v → durationsCovered (runOps v ops).2 := by
  intro ops
  induction ops with
  | nil => exact fun v hv => hv
  | cons op rest ih =>
    intro v hv
    cases op with
    | startOp sc st now => exact ih _ (durationsCovered_start v sc st now hv)
    | endOp id sc st now stamp fail =>
      exact ih _ (durationsCovered_end v id sc st now stamp fail hv)
    | reportOp => exact ih v hv

/-- C10: starting from the empty fresh ledger, after any sequence of `Start`,
`End` and `Report` calls every `StepID` with a recorded duration also has a
recorded start time (durations keys are a subset of start-times keys). -/
theorem durations_keys_subset_startTimes_keys (ops : List Op) :
    durationsCovered (runOps freshAgent ops).2 :=
  durationsCovered_runOps ops freshAgent
    (fun id h => by simp [freshAgent, List.lookup] at h)

/-- Witness for C10 at a concrete trace: after `Start` then `End` of the
generated id, the id with a duration indeed has a start time. -/
theorem durations_keys_subset_startTimes_keys_witness :
    ((runOps freshAgent [Op.startOp "a" "b" 0,
      Op.endOp "a-b-1" "a" "b" 5 "ts" false]).2.startTimes.lookup "a-b-1").isSome
      = true :=
  durations_keys_subset_startTimes_keys
    [Op.startOp "a" "b" 0, Op.endOp "a-b-1" "a" "b" 5 "ts" false] "a-b-1" (by decide)

/-- C2: `End` on a `StepID` with no recorded start time only prints the
diagnostic: the start-times map, the durations map, the counter and the
database rows are all unchanged, and `End` returns normally. -/
theorem end_unknown_id_no_side_effects (v : VectorClockAgent) (id sc st : String)
    (now : Int) (stamp : String) (fail : Bool)
    (h : v.startTimes.lookup id = none) :
    (v.End id sc st now stamp fail).startTimes = v.startTimes ∧
    (v.End id sc st now stamp fail).durations = v.durations ∧
    (v.End id sc st now stamp fail).counter = v.counter ∧
    (v.End id sc st now stamp fail).db = v.db ∧
    (v.End id sc st now stamp fail).log =
      v.log ++ ["No start time recorded for step " ++ id] := by
  simp [VectorClockAgent.End, h]

/-- Witness for C2: ending a never-started id on the fresh ledger. -/
theorem end_unknown_id_no_side_effects_witness :
    freshAgent.startTimes.lookup "ghost" = none ∧
    (freshAgent.End "ghost" "sc" "st" 9 "ts" false).durations = freshAgent.durations :=
  ⟨by decide, (end_unknown_id_no_side_effects freshAgent "ghost" "sc" "st" 9 "ts" false
    (by decide)).2.1⟩

/-- C7: when the started step's database write fails, `End` still returns
normally with the duration recorded in memory, the failure only appended to
the log, and no other state touched. -/
theorem persistence_failure_non_fatal (v : VectorClockAgent) (id sc st : String)
    (t1 t2 : Int) (stamp : String) (h : v.startTimes.lookup id = some t1) :
    (v.End id sc st t2 stamp true).durations = (id, t2 - t1) :: v.durations ∧
    (v.End id sc st t2 stamp true).db = v.db ∧
    (v.End id sc st t2 stamp true).startTimes = v.startTimes ∧
    (v.End id sc st t2 stamp true).counter = v.counter ∧
    (v.End id sc st t2 stamp true).log =
      v.log ++ ["Failed to save step " ++ id ++ " to DB"] := by
  simp [VectorClockAgent.End, h]

/-- Witness for C7 after a concrete `Start`. -/
theorem persistence_failure_non_fatal_witness :
    (freshAgent.Start "a" "b" 2).2.startTimes.lookup "a-b-1" = some 2 ∧
    ((freshAgent.Start "a" "b" 2).2.End "a-b-1" "a" "b" 7 "ts" true).durations =
      ("a-b-1", 5) :: (freshAgent.Start "a" "b" 2).2.durations ∧
    ((freshAgent.Start "a" "b" 2).2.End "a-b-1" "a" "b" 7 "ts" true).db =
      (freshAgent.Start "a" "b" 2).2.db := by
  have h := persistence_failure_non_fatal (freshAgent.Start "a" "b" 2).2 "a-b-1" "a" "b"
    2 7 "ts" (by decide)
  exact ⟨by decide, h.1, h.2.1⟩

/-- C5: ending a step right after starting it records exactly the elapsed
wall-clock difference as the duration; with a monotone clock it is
non-negative, and it dominates any sleep that fits between the two instants
(sleeping 150ms forces a duration of at least 150ms). -/
theorem end_after_start_duration (v : VectorClockAgent) (sc st : String)
    (t1 t2 : Int) (stamp : String) (fail : Bool) (h : t1 ≤ t2) :
    (((v.Start sc st t1).2.End (v.Start sc st t1).1 sc st t2 stamp fail).durations.lookup
        (v.Start sc st t1).1 = some (t2 - t1)) ∧
    0 ≤ t2 - t1 ∧
    (∀ sleepNs : Int, t1 + sleepNs ≤ t2 → sleepNs ≤ t2 - t1) := by
  refine ⟨?_, by omega, fun s hs => by omega⟩
  have hlook : (v.Start sc st t1).2.startTimes.lookup (v.Start sc st t1).1 = some t1 := by
    show (((v.Start sc st t1).1, t1) :: v.startTimes).lookup (v.Start sc st t1).1 = some t1
    simp [List.lookup]
  simp only [VectorClockAgent.End, hlook]
  cases fail <;> simp [List.lookup]

/-- Witness for C5: starting at instant 0 and ending at instant
150000000 (a 150ms sleep in nanoseconds) records duration 150000000. -/
theorem end_after_start_duration_witness :
    (((freshAgent.Start "LoginScenario" "I click submit" 0).2.End
        (freshAgent.Start "LoginScenario" "I click submit" 0).1
        "LoginScenario" "I click submit" 150000000 "ts" false).durations.lookup
      (freshAgent.Start "LoginScenario" "I click submit" 0).1) =
      some (150000000 - 0) :=
  (end_after_start_duration freshAgent "LoginScenario" "I click submit" 0 150000000
    "ts" false (by omega)).1

/-- C1: over any sequence of ledger calls on the fresh ledger (fewer `Start`
calls than the `uint64` counter can count, which a run cannot exceed), the
`StepID`s returned by the `Start` calls are pairwise distinct, even when the
same scenario name and step text repeat; in particular no later `Start`
returns an id generated earlier. -/
theorem stepIDs_pairwise_distinct (ops : List Op)
    (h : countStarts ops < 2 ^ 64) :
    ((runOps freshAgent ops).1).Nodup := by
  rw [runOps_fst]
  exact (idsFrom_nodup ops 0 (by omega)).1

/-- Witness for C1: two `Start` calls with identical inputs return distinct ids. -/
theorem stepIDs_pairwise_distinct_witness :
    countStarts [Op.startOp "s" "t" 0, Op.startOp "s" "t" 1] < 2 ^ 64 ∧
      ((runOps freshAgent [Op.startOp "s" "t" 0, Op.startOp "s" "t" 1]).1).Nodup :=
  ⟨by decide, stepIDs_pairwise_distinct [Op.startOp "s" "t" 0, Op.startOp "s" "t" 1]
    (by decide)⟩

/-- C4: `Start` returns exactly `scenarioName ++ "-" ++ stepText ++ "-" ++ n`
with `n` the value of the atomic fetch-and-increment of the `uint64` counter;
on the fresh ledger the first value is 1; `End` never changes the counter, and
as long as the counter does not exhaust `uint64` it strictly increases. -/
theorem start_returns_formatted_id (v : VectorClockAgent) (sc st : String)
    (now : Int) :
    (v.Start sc st now).1 =
      sc ++ "-" ++ st ++ "-" ++ Nat.repr ((v.counter + 1) % 2 ^ 64) ∧
    (v.Start sc st now).2.counter = (v.counter + 1) % 2 ^ 64 ∧
    (freshAgent.Start sc st now).1 = sc ++ "-" ++ st ++ "-" ++ Nat.repr 1 ∧
    (∀ (id sc2 st2 : String) (t : Int) (s : String) (f : Bool),
      (v.End id sc2 st2 t s f).counter = v.counter) ∧
    (v.counter + 1 < 2 ^ 64 → v.counter < (v.Start sc st now).2.counter) := by
  refine ⟨rfl, rfl, rfl, fun id sc2 st2 t s f => end_counter v id sc2 st2 t s f, ?_⟩
  intro h
  show v.counter < (v.counter + 1) % 2 ^ 64
  rw [Nat.mod_eq_of_lt h]
  omega

/-- Witness for C4 on the fresh ledger. -/
theorem start_returns_formatted_id_witness :
    (freshAgent.Start "a" "b" 3).1 = "a" ++ "-" ++ "b" ++ "-" ++ Nat.repr 1 ∧
    freshAgent.counter < (freshAgent.Start "a" "b" 3).2.counter :=
  ⟨(start_returns_formatted_id freshAgent "a" "b" 3).2.2.1,
    (start_returns_formatted_id freshAgent "a" "b" 3).2.2.2.2 (by decide)⟩


/-- C3: the per-step insert is idempotent on `StepID`: inserting a row for a
fresh `StepID` and then any row with the same `StepID` again (the simulated
duplicate) leaves exactly one row for that `StepID`, and the duplicate
attempt leaves the store untouched (`INSERT OR IGNORE` raises no error). -/
theorem persist_idempotent (db : List DBRow) (r r2 : DBRow)
    (hid : r2.step_id = r.step_id) (h0 : countRows db r.step_id = 0) :
    countRows (insertOrIgnore (insertOrIgnore db r) r2) r.step_id = 1 ∧
    insertOrIgnore (insertOrIgnore db r) r2 = insertOrIgnore db r := by
  have hnil : db.filter (fun q => q.step_id == r.step_id) = [] :=
    List.length_eq_zero.mp h0
  have hnone : ∀ q ∈ db, ¬(q.step_id == r.step_id) = true := by
    intro q hq
    exact List.filter_eq_nil_iff.mp hnil q hq
  have hany : (db.any fun q => q.step_id == r.step_id) = false := by
    rw [List.any_eq_false]
    exact hnone
  have h1 : insertOrIgnore db r = db ++ [r] := by
    simp [insertOrIgnore, hany]
  have hany2 : ((db ++ [r]).any fun q => q.step_id == r2.step_id) = true := by
    rw [List.any_eq_true]
    exact ⟨r, by simp, by simp [hid]⟩
  have h2 : insertOrIgnore (db ++ [r]) r2 = db ++ [r] := by
    simp [insertOrIgnore, hany2]
  refine ⟨?_, by rw [h1, h2]⟩
  rw [h1, h2]
  unfold countRows
  rw [List.filter_append, hnil]
  simp

/-- Witness for C3 on an empty store. -/
theorem persist_idempotent_witness :
    countRows (insertOrIgnore (insertOrIgnore [] (mkRow "id1" "sc" "st" 5000000 "t1"))
      (mkRow "id1" "sc" "st" 7000000 "t2")) "id1" = 1 :=
  (persist_idempotent [] (mkRow "id1" "sc" "st" 5000000 "t1")
    (mkRow "id1" "sc" "st" 7000000 "t2") rfl (by decide)).1

/-- C8: when opening the database or creating its schema fails, construction
panics: no ledger value is returned at all. -/
theorem init_failure_is_fatal (openOk createOk : Bool) (existing : List DBRow)
    (h : openOk = false ∨ createOk = false) :
    ∃ msg : String, NewVectorClockAgent openOk createOk existing =
      Except.error msg := by
  cases openOk
  · exact ⟨"failed to open SQLite database", rfl⟩
  · cases createOk
    · exact ⟨"failed to create table", rfl⟩
    · rcases h with h | h <;> simp at h

/-- Witness for C8: a failing open aborts construction. -/
theorem init_failure_is_fatal_witness :
    ∃ msg : String, NewVectorClockAgent false true [] = Except.error msg :=
  init_failure_is_fatal false true [] (Or.inl rfl)

theorem mem_insertOrIgnore (db : List DBRow) (r q : DBRow) (h : q ∈ db) :
    q ∈ insertOrIgnore db r := by
  unfold insertOrIgnore
  split
  · exact h
  · exact List.mem_append_left _ h

theorem end_startTimes (v : VectorClockAgent) (id sc st : String) (now : Int)
    (stamp : String) (fail : Bool) :
    (v.End id sc st now stamp fail).startTimes = v.startTimes := by
  cases hl : v.startTimes.lookup id with
  | none => rw [end_def_miss v id sc st now stamp fail hl]
  | some t =>
    cases fail
    · rw [end_def_hit_ok v id sc st now stamp t hl]
    · rw [end_def_hit_fail v id sc st now stamp t hl]

theorem end_durations_isSome (v : VectorClockAgent) (id sc st : String) (now : Int)
    (stamp : String) (fail : Bool) (id0 : String)
    (h0 : (v.durations.lookup id0).isSome = true) :
    ((v.End id sc st now stamp fail).durations.lookup id0).isSome = true := by
  cases hl : v.startTimes.lookup id with
  | none =>
    rw [end_def_miss v id sc st now stamp fail hl]
    exact h0
  | some t =>
    cases fail
    · rw [end_def_hit_ok v id sc st now stamp t hl]
      exact (lookup_cons_isSome_iff v.durations id0 id (now - t)).mpr (Or.inr h0)
    · rw [end_def_hit_fail v id sc st now stamp t hl]
      exact (lookup_cons_isSome_iff v.durations id0 id (now - t)).mpr (Or.inr h0)

theorem end_db_mem (v : VectorClockAgent) (id sc st : String) (now : Int)
    (stamp : String) (fail : Bool) (q : DBRow) (h : q ∈ v.db) :
    q ∈ (v.End id sc st now stamp fail).db := by
  cases hl : v.startTimes.lookup id with
  | none =>
    rw [end_def_miss v id sc st now stamp fail hl]
    exact h
  | some t =>
    cases fail
    · rw [end_def_hit_ok v id sc st now stamp t hl]
      exact mem_insertOrIgnore v.db (mkRow id sc st (now - t) stamp) q h
    · rw [end_def_hit_fail v id sc st now stamp t hl]
      exact h

theorem end_durations_other (v : VectorClockAgent) (id sc st : String) (now : Int)
    (stamp : String) (fail : Bool) (id0 : String) (hne : id0 ≠ id) :
    (v.End id sc st now stamp fail).durations.lookup id0 = v.durations.lookup id0 := by
  cases hl : v.startTimes.lookup id with
  | none => rw [end_def_miss v id sc st now stamp fail hl]
  | some t =>
    cases fail
    · rw [end_def_hit_ok v id sc st now stamp t hl]
      exact lookup_cons_ne v.durations id0 id (now - t) hne
    · rw [end_def_hit_fail v id sc st now stamp t hl]
      exact lookup_cons_ne v.durations id0 id (now - t) hne

/-- C6: the two-phase record lifecycle.  `Start` creates the start-time entry
for the id it returns and touches neither durations nor the store; `End`
leaves the start-times map intact, only adds duration and store entries
(never deletes), and changes no duration entry other than the ended id;
`Report` changes nothing.  Records are thus never deleted by any operation. -/
theorem record_lifecycle (v : VectorClockAgent) (sc st id sc2 st2 : String)
    (t1 t2 : Int) (stamp : String) (fail : Bool) :
    (v.Start sc st t1).2.startTimes.lookup (v.Start sc st t1).1 = some t1 ∧
    (v.Start sc st t1).2.durations = v.durations ∧
    (v.Start sc st t1).2.db = v.db ∧
    (∀ id0 : String, (v.startTimes.lookup id0).isSome = true →
      ((v.Start sc st t1).2.startTimes.lookup id0).isSome = true) ∧
    (v.End id sc2 st2 t2 stamp fail).startTimes = v.startTimes ∧
    (∀ id0 : String, (v.durations.lookup id0).isSome = true →
      ((v.End id sc2 st2 t2 stamp fail).durations.lookup id0).isSome = true) ∧
    (∀ r : DBRow, r ∈ v.db → r ∈ (v.End id sc2 st2 t2 stamp fail).db) ∧
    (∀ id0 : String, id0 ≠ id →
      (v.End id sc2 st2 t2 stamp fail).durations.lookup id0 =
        v.durations.lookup id0) ∧
    (runOps v [Op.reportOp]).2 = v := by
  refine ⟨?_, rfl, rfl, ?_, end_startTimes v id sc2 st2 t2 stamp fail, ?_, ?_, ?_, rfl⟩
  · show (((v.Start sc st t1).1, t1) :: v.startTimes).lookup (v.Start sc st t1).1 =
      some t1
    simp [List.lookup]
  · intro id0 h0
    exact (lookup_cons_isSome_iff v.startTimes id0 (v.Start sc st t1).1 t1).mpr
      (Or.inr h0)
  · exact fun id0 h0 => end_durations_isSome v id sc2 st2 t2 stamp fail id0 h0
  · exact fun r hr => end_db_mem v id sc2 st2 t2 stamp fail r hr
  · exact fun id0 hne => end_durations_other v id sc2 st2 t2 stamp fail id0 hne

/-- Witness for C6 after one concrete `Start`. -/
theorem record_lifecycle_witness :
    (freshAgent.Start "a" "b" 0).2.startTimes.lookup (freshAgent.Start "a" "b" 0).1 =
      some 0 ∧
    (freshAgent.End "q" "a" "b" 4 "ts" false).durations.lookup "x" =
      freshAgent.durations.lookup "x" :=
  ⟨(record_lifecycle freshAgent "a" "b" "q" "a" "b" 0 4 "ts" false).1,
    (record_lifecycle freshAgent "a" "b" "q" "a" "b" 0 4 "ts"
      false).2.2.2.2.2.2.2.1 "x" (by decide)⟩


theorem containsStr_append_right (a s : String) : containsStr (a ++ s) s :=
  ⟨a.data, [], by simp⟩

theorem containsStr_mid (a s b : String) : containsStr (a ++ s ++ b) s :=
  ⟨a.data, b.data, by simp⟩

theorem containsStr_left (s t sub : String) (h : containsStr s sub) :
    containsStr (s ++ t) sub := by
  obtain ⟨u, w, hu⟩ := h
  refine ⟨u, w ++ t.data, ?_⟩
  rw [String.data_append, ← hu]
  simp

/-- C9: `Report` emits, besides the header, exactly one line per persisted
record (none omitted), and the line of each record contains its `StepID`, its
scenario name, its step text, its duration in milliseconds, and its creation
timestamp. -/
theorem report_lists_every_record (v : VectorClockAgent) :
    (v.Report).length = v.db.length + 1 ∧
    ∀ r ∈ v.db, reportLine r ∈ v.Report ∧
      containsStr (reportLine r) r.step_id ∧
      containsStr (reportLine r) r.scenario_name ∧
      containsStr (reportLine r) r.step_text ∧
      containsStr (reportLine r) (toString r.duration_ms) ∧
      containsStr (reportLine r) r.created_at := by
  constructor
  · simp [VectorClockAgent.Report]
  · intro r hr
    refine ⟨List.mem_cons_of_mem _ (List.mem_map_of_mem reportLine hr),
      ?_, ?_, ?_, ?_, ?_⟩
    all_goals simp only [reportLine]
    all_goals
      repeat
        first
        | exact containsStr_mid _ _ _
        | exact containsStr_append_right _ _
        | apply containsStr_left

/-- Witness for C9 on a one-row store. -/
theorem report_lists_every_record_witness :
    reportLine (mkRow "id1" "Login" "submit" 150000000 "tms") ∈
      VectorClockAgent.Report { freshAgent with
        db := [mkRow "id1" "Login" "submit" 150000000 "tms"] } :=
  ((report_lists_every_record { freshAgent with
      db := [mkRow "id1" "Login" "submit" 150000000 "tms"] }).2
    (mkRow "id1" "Login" "submit" 150000000 "tms") (by decide)).1
